/-
Verification of the constraint-based solver scheduler: a shallow embedding
of `nova/scheduler/solver_scheduler.py` and the constraint units under
`nova/scheduler/solvers/constraints/`, together with theorems settling the
behavioural claims about row generation, fallback handling and state reset.
-/

import Mathlib

set_option maxHeartbeats 1000000

/-! ## Row state: the four parallel lists held by `BaseLinearConstraint`

`BaseLinearConstraint._reset` sets `self.vars`, `self.coefficients`,
`self.constants` and `self.operators` to fresh empty lists; the subclasses'
`_generate_components` bodies append one element to each of the four lists
per emitted row.  `V` is the type of the opaque decision-variable handles
stored in `vars.host_instance_matrix`. -/

structure RowState (V : Type) where
  vars : List (List V)
  coefficients : List (List Int)
  constants : List Int
  operators : List String
deriving DecidableEq, Repr

/-- The state written by `BaseLinearConstraint._reset`: four empty lists.
The prior contents of the instance are discarded. -/
def RowState.reset {V : Type} (_self : RowState V) : RowState V :=
  ⟨[], [], [], []⟩

/-- One iteration of the append idiom
`self.vars.append(...); self.coefficients.append(...);
self.constants.append(...); self.operators.append(...)`. -/
def RowState.append1 {V : Type} (st : RowState V) (v : List V) (c : List Int)
    (k : Int) (o : String) : RowState V :=
  ⟨st.vars ++ [v], st.coefficients ++ [c],
   st.constants ++ [k], st.operators ++ [o]⟩

/-- Host state record: the attributes of a host candidate read by the
embedded constraint units (`hosts[i].num_io_ops` for `IoOpsConstraint`, and
`hosts[i].pci_stats` for `PciPassthroughConstraint`, modelled as a reference
into a heap of device-stats values). -/
structure HostState where
  num_io_ops : Int
  pci_stats : Nat
deriving DecidableEq, Repr

/-- The keys of the `filter_properties` dictionary read by the embedded
constraint units: `filter_properties.get('num_instances')` and
`filter_properties.get('pci_requests')` (the latter absent = `none`).
`R` is the type of one PCI request entry. -/
structure FilterProperties (R : Type) where
  num_instances : Nat
  pci_requests : Option (List R)

/-- `vars.host_instance_matrix`, the host-by-instance grid of decision
variable handles; `host_instance_matrix i j` is `var_matrix[i][j]`. -/
structure BaseVariables (V : Type) where
  host_instance_matrix : Nat → Nat → V

/-! ## IoOpsConstraint (`io_ops_constraint.py`)

`_generate_components` reads `CONF.max_io_ops_per_host` (passed here as the
argument `max_io_ops`) and, for each host `i`, computes
`acceptable_num_instances = int(max_io_ops - num_io_ops)` clamped below at
`0`, and when it is below `num_instances` appends one forced-zero row for
every `j in xrange(acceptable_num_instances, num_instances)`. -/

/-- Loop body for one host of `IoOpsConstraint._generate_components`. -/
def IoOpsConstraint.hostRows {V : Type} (max_io_ops : Int) (num_instances : Nat)
    (m : Nat → Nat → V) (i : Nat) (host : HostState) (st : RowState V) :
    RowState V :=
  let num_io_ops := host.num_io_ops
  let acceptable_num_instances : Int := max_io_ops - num_io_ops
  let acceptable_num_instances : Int :=
    if acceptable_num_instances < 0 then 0 else acceptable_num_instances
  if acceptable_num_instances < (num_instances : Int) then
    (List.range' acceptable_num_instances.toNat
        (num_instances - acceptable_num_instances.toNat)).foldl
      (fun s j => s.append1 [m i j] [1] 0 "==") st
  else st

/-- The `for i in xrange(num_hosts)` loop of
`IoOpsConstraint._generate_components`, with `i` the current host index. -/
def IoOpsConstraint.loop {V : Type} (max_io_ops : Int) (num_instances : Nat)
    (m : Nat → Nat → V) : Nat → List HostState → RowState V → RowState V
  | _, [], st => st
  | i, host :: rest, st =>
      IoOpsConstraint.loop max_io_ops num_instances m (i + 1) rest
        (IoOpsConstraint.hostRows max_io_ops num_instances m i host st)

/-- `IoOpsConstraint._generate_components(vars, hosts, filter_properties)`. -/
def IoOpsConstraint.generate_components {V R : Type} (max_io_ops : Int)
    (vars : BaseVariables V) (hosts : List HostState)
    (filter_properties : FilterProperties R) (st : RowState V) : RowState V :=
  IoOpsConstraint.loop max_io_ops filter_properties.num_instances
    vars.host_instance_matrix 0 hosts st

/-- `get_components` on an `IoOpsConstraint` instance whose current row
state is `self`: `self._reset()` then `self._generate_components(...)`,
returning the four lists. -/
def IoOpsConstraint.get_components {V R : Type} (max_io_ops : Int)
    (vars : BaseVariables V) (hosts : List HostState)
    (filter_properties : FilterProperties R) (self : RowState V) : RowState V :=
  IoOpsConstraint.generate_components max_io_ops vars hosts
    filter_properties self.reset

/-! ### Specification-side description of the IoOps rows (from the spec's
words: forced-zero rows cover exactly instance indices `max(0, L-u) .. N-1`
on each host). -/

/-- Modelled from the spec: the instance indices forced to zero on a host
with capacity limit `L` and current load `u`, out of `N` requested
instances: `max(0, L-u) .. N-1`. -/
def IoOpsSpec.hostForcedIndices (L u : Int) (N : Nat) : List Nat :=
  List.range' (max 0 (L - u)).toNat (N - (max 0 (L - u)).toNat)

/-- Modelled from the spec: the variable column of the forced-zero rows,
host block by host block, starting at host index `i`. -/
def IoOpsSpec.rowVars {V : Type} (L : Int) (N : Nat) (m : Nat → Nat → V) :
    Nat → List HostState → List (List V)
  | _, [] => []
  | i, host :: rest =>
      (IoOpsSpec.hostForcedIndices L host.num_io_ops N).map (fun j => [m i j])
        ++ IoOpsSpec.rowVars L N m (i + 1) rest

/-! ### Characterisation lemmas -/

theorem RowState.foldl_append1 {V : Type} (f1 : Nat → List V)
    (f2 : Nat → List Int) (f3 : Nat → Int) (f4 : Nat → String) :
    ∀ (l : List Nat) (st : RowState V),
    (l.foldl (fun s j => s.append1 (f1 j) (f2 j) (f3 j) (f4 j)) st) =
      ⟨st.vars ++ l.map f1, st.coefficients ++ l.map f2,
       st.constants ++ l.map f3, st.operators ++ l.map f4⟩ := by
  intro l
  induction l with
  | nil => intro st; simp [RowState.append1]
  | cons x xs ih =>
      intro st
      rw [List.foldl_cons, ih]
      simp [RowState.append1, List.append_assoc]

theorem IoOpsConstraint.hostRows_eq {V : Type} (L : Int) (N : Nat)
    (m : Nat → Nat → V) (i : Nat) (host : HostState) (st : RowState V) :
    IoOpsConstraint.hostRows L N m i host st =
      ⟨st.vars ++
         (IoOpsSpec.hostForcedIndices L host.num_io_ops N).map (fun j => [m i j]),
       st.coefficients ++
         List.replicate (IoOpsSpec.hostForcedIndices L host.num_io_ops N).length
           [(1 : Int)],
       st.constants ++
         List.replicate (IoOpsSpec.hostForcedIndices L host.num_io_ops N).length
           (0 : Int),
       st.operators ++
         List.replicate (IoOpsSpec.hostForcedIndices L host.num_io_ops N).length
           "=="⟩ := by
  unfold IoOpsConstraint.hostRows IoOpsSpec.hostForcedIndices
  have hclamp : (if L - host.num_io_ops < 0 then 0 else L - host.num_io_ops) =
      max 0 (L - host.num_io_ops) := by
    rcases le_or_lt 0 (L - host.num_io_ops) with h | h
    · simp [not_lt.mpr h, max_eq_right h]
    · simp [h, max_eq_left h.le]
  simp only [hclamp]
  by_cases hcase : (max 0 (L - host.num_io_ops)) < (N : Int)
  · rw [if_pos hcase, RowState.foldl_append1]
    congr 1 <;> simp [List.map_const', List.length_range']
  · rw [if_neg hcase]
    have haN : N - (max 0 (L - host.num_io_ops)).toNat = 0 := by
      have h0 : (0 : Int) ≤ max 0 (L - host.num_io_ops) := le_max_left _ _
      omega
    simp [haN]

theorem IoOpsConstraint.loop_eq {V : Type} (L : Int) (N : Nat)
    (m : Nat → Nat → V) :
    ∀ (hosts : List HostState) (i : Nat) (st : RowState V),
    IoOpsConstraint.loop L N m i hosts st =
      ⟨st.vars ++ IoOpsSpec.rowVars L N m i hosts,
       st.coefficients ++
         List.replicate (IoOpsSpec.rowVars L N m i hosts).length [(1 : Int)],
       st.constants ++
         List.replicate (IoOpsSpec.rowVars L N m i hosts).length (0 : Int),
       st.operators ++
         List.replicate (IoOpsSpec.rowVars L N m i hosts).length "=="⟩ := by
  intro hosts
  induction hosts with
  | nil => intro i st; simp [IoOpsConstraint.loop, IoOpsSpec.rowVars]
  | cons host rest ih =>
      intro i st
      rw [IoOpsConstraint.loop, ih, IoOpsConstraint.hostRows_eq]
      simp only [IoOpsSpec.rowVars, List.length_append, List.length_map]
      congr 1 <;>
        simp only [List.replicate_add, List.append_assoc]

/-- Claim C2: for every host `i` with capacity limit `L`
(`max_io_ops_per_host`), current load `u` (`num_io_ops`) and `N` requested
instances, `IoOpsConstraint` emits forced-zero rows exactly for the instance
indices `max(0, L-u) .. N-1` of host `i` (each a singleton-variable row with
coefficient `[1]`, constant `0` and operator `==`), and emits no rows for a
host when `L - u >= N`. -/
theorem ioops_forced_rows_exact {V R : Type} (L : Int)
    (vars : BaseVariables V) (hosts : List HostState)
    (fp : FilterProperties R) (self : RowState V) :
    IoOpsConstraint.get_components L vars hosts fp self =
      ⟨IoOpsSpec.rowVars L fp.num_instances vars.host_instance_matrix 0 hosts,
       List.replicate
         (IoOpsSpec.rowVars L fp.num_instances vars.host_instance_matrix
            0 hosts).length [(1 : Int)],
       List.replicate
         (IoOpsSpec.rowVars L fp.num_instances vars.host_instance_matrix
            0 hosts).length (0 : Int),
       List.replicate
         (IoOpsSpec.rowVars L fp.num_instances vars.host_instance_matrix
            0 hosts).length "=="⟩
    ∧ (∀ u : Int, (fp.num_instances : Int) ≤ L - u →
        IoOpsSpec.hostForcedIndices L u fp.num_instances = []) := by
  constructor
  · unfold IoOpsConstraint.get_components IoOpsConstraint.generate_components
    rw [IoOpsConstraint.loop_eq]
    simp [RowState.reset]
  · intro u hu
    unfold IoOpsSpec.hostForcedIndices
    have h0 : (0 : Int) ≤ max 0 (L - u) := le_max_left _ _
    have hle : (fp.num_instances : Int) ≤ max 0 (L - u) :=
      le_trans hu (le_max_right _ _)
    have : fp.num_instances - (max 0 (L - u)).toNat = 0 := by omega
    simp [this]

/-- Witness for claim C2 at a concrete input: two hosts with loads 3 and 9
against a limit of 5 and 3 requested instances. -/
theorem ioops_forced_rows_exact_witness :
    IoOpsConstraint.get_components (V := String) (R := Unit) 5
        ⟨fun i j => s!"h{i}i{j}"⟩ [⟨3, 0⟩, ⟨9, 0⟩] ⟨3, none⟩ ⟨[], [], [], []⟩ =
      ⟨[["h0i2"], ["h1i0"], ["h1i1"], ["h1i2"]],
       [[1], [1], [1], [1]], [0, 0, 0, 0], ["==", "==", "==", "=="]⟩
    ∧ IoOpsSpec.hostForcedIndices 5 2 3 = [] := by
  have h := ioops_forced_rows_exact (V := String) (R := Unit) 5
    ⟨fun i j => s!"h{i}i{j}"⟩ [⟨3, 0⟩, ⟨9, 0⟩] ⟨3, none⟩ ⟨[], [], [], []⟩
  refine ⟨h.1.trans (by decide), h.2 2 (by decide)⟩

/-! ## BaseFilterConstraint (`constraints/__init__.py`)

`BaseFilterConstraint._generate_components` wraps a legacy one-shot host
filter: for each host it calls `self.host_filter.host_passes(hosts[i],
filter_properties)` and, when the filter fails, appends one forced-zero row
per instance index `j in xrange(num_instances)`.  The wrapped filter is the
external collaborator `host_passes`. -/

/-- Loop body for one host of `BaseFilterConstraint._generate_components`. -/
def BaseFilterConstraint.hostRows {V : Type} (host_passes : Bool)
    (num_instances : Nat) (m : Nat → Nat → V) (i : Nat) (st : RowState V) :
    RowState V :=
  if host_passes then st
  else
    (List.range num_instances).foldl
      (fun s j => s.append1 [m i j] [1] 0 "==") st

/-- The `for i in xrange(num_hosts)` loop of
`BaseFilterConstraint._generate_components`. -/
def BaseFilterConstraint.loop {V R : Type}
    (host_filter : HostState → FilterProperties R → Bool)
    (num_instances : Nat) (m : Nat → Nat → V) (fp : FilterProperties R) :
    Nat → List HostState → RowState V → RowState V
  | _, [], st => st
  | i, host :: rest, st =>
      BaseFilterConstraint.loop host_filter num_instances m fp (i + 1) rest
        (BaseFilterConstraint.hostRows (host_filter host fp) num_instances m i st)

/-- `BaseFilterConstraint._generate_components(vars, hosts,
filter_properties)`, with `host_filter` the wrapped filter's `host_passes`. -/
def BaseFilterConstraint.generate_components {V R : Type}
    (host_filter : HostState → FilterProperties R → Bool)
    (vars : BaseVariables V) (hosts : List HostState)
    (filter_properties : FilterProperties R) (st : RowState V) : RowState V :=
  BaseFilterConstraint.loop host_filter filter_properties.num_instances
    vars.host_instance_matrix filter_properties 0 hosts st

/-- `get_components` on a `BaseFilterConstraint` instance whose current row
state is `self`: `self._reset()` then `self._generate_components(...)`. -/
def BaseFilterConstraint.get_components {V R : Type}
    (host_filter : HostState → FilterProperties R → Bool)
    (vars : BaseVariables V) (hosts : List HostState)
    (filter_properties : FilterProperties R) (self : RowState V) : RowState V :=
  BaseFilterConstraint.generate_components host_filter vars hosts
    filter_properties self.reset

/-- Modelled from the spec: for a host failing the wrapped filter, every
instance slot of that host is forced to zero (`num_instances` singleton
rows); for a passing host, no rows. -/
def FilterSpec.rowVars {V R : Type}
    (host_filter : HostState → FilterProperties R → Bool) (N : Nat)
    (m : Nat → Nat → V) (fp : FilterProperties R) :
    Nat → List HostState → List (List V)
  | _, [] => []
  | i, host :: rest =>
      (if host_filter host fp then []
       else (List.range N).map (fun j => [m i j]))
        ++ FilterSpec.rowVars host_filter N m fp (i + 1) rest

theorem BaseFilterConstraint.filterHostRows_eq {V : Type} (host_passes : Bool)
    (N : Nat) (m : Nat → Nat → V) (i : Nat) (st : RowState V) :
    BaseFilterConstraint.hostRows host_passes N m i st =
      ⟨st.vars ++
         (if host_passes then [] else (List.range N).map (fun j => [m i j])),
       st.coefficients ++
         List.replicate
           (if host_passes then [] else
             (List.range N).map (fun j => [m i j])).length [(1 : Int)],
       st.constants ++
         List.replicate
           (if host_passes then [] else
             (List.range N).map (fun j => [m i j])).length (0 : Int),
       st.operators ++
         List.replicate
           (if host_passes then [] else
             (List.range N).map (fun j => [m i j])).length "=="⟩ := by
  cases host_passes with
  | true => simp [BaseFilterConstraint.hostRows]
  | false =>
      simp only [BaseFilterConstraint.hostRows, if_neg Bool.false_ne_true,
        Bool.false_eq_true, if_false]
      rw [RowState.foldl_append1]
      congr 1 <;> simp [List.map_const']

theorem BaseFilterConstraint.filterLoop_eq {V R : Type}
    (host_filter : HostState → FilterProperties R → Bool) (N : Nat)
    (m : Nat → Nat → V) (fp : FilterProperties R) :
    ∀ (hosts : List HostState) (i : Nat) (st : RowState V),
    BaseFilterConstraint.loop host_filter N m fp i hosts st =
      ⟨st.vars ++ FilterSpec.rowVars host_filter N m fp i hosts,
       st.coefficients ++
         List.replicate (FilterSpec.rowVars host_filter N m fp i hosts).length
           [(1 : Int)],
       st.constants ++
         List.replicate (FilterSpec.rowVars host_filter N m fp i hosts).length
           (0 : Int),
       st.operators ++
         List.replicate (FilterSpec.rowVars host_filter N m fp i hosts).length
           "=="⟩ := by
  intro hosts
  induction hosts with
  | nil => intro i st; simp [BaseFilterConstraint.loop, FilterSpec.rowVars]
  | cons host rest ih =>
      intro i st
      rw [BaseFilterConstraint.loop, ih, BaseFilterConstraint.filterHostRows_eq]
      simp only [FilterSpec.rowVars, List.length_append]
      congr 1 <;> simp only [List.replicate_add, List.append_assoc]

/-- Claim C6: for every host that fails the wrapped filter's `host_passes`
check, `BaseFilterConstraint` emits one forced-zero row per instance index
(`num_instances` singleton rows with coefficient `[1]`, constant `0`,
operator `==`), covering every instance slot of that host; for every passing
host it emits no rows. -/
theorem basefilter_excludes_failing_hosts {V R : Type}
    (host_filter : HostState → FilterProperties R → Bool)
    (vars : BaseVariables V) (hosts : List HostState)
    (fp : FilterProperties R) (self : RowState V) :
    BaseFilterConstraint.get_components host_filter vars hosts fp self =
      ⟨FilterSpec.rowVars host_filter fp.num_instances
         vars.host_instance_matrix fp 0 hosts,
       List.replicate
         (FilterSpec.rowVars host_filter fp.num_instances
            vars.host_instance_matrix fp 0 hosts).length [(1 : Int)],
       List.replicate
         (FilterSpec.rowVars host_filter fp.num_instances
            vars.host_instance_matrix fp 0 hosts).length (0 : Int),
       List.replicate
         (FilterSpec.rowVars host_filter fp.num_instances
            vars.host_instance_matrix fp 0 hosts).length "=="⟩ := by
  unfold BaseFilterConstraint.get_components
    BaseFilterConstraint.generate_components
  rw [BaseFilterConstraint.filterLoop_eq]
  simp [RowState.reset]

/-! ## PciPassthroughConstraint (`pci_passthrough_constraint.py`)

The per-host device stats object (`hosts[i].pci_stats`, an externally owned
`PciDeviceStats`) is mutable: `apply_requests` updates it in place.  We model
object identity with a heap of stats values indexed by references; a host's
`pci_stats` attribute is a reference.  `copy.deepcopy(hosts[i].pci_stats)`
allocates a fresh cell holding a copy of the referenced value, so the trial
loop's `apply_requests` writes hit only the fresh cell.  The stats type `S`
and the `support_requests` / `apply_requests` behaviour of
`PciDeviceStats` are the external collaborator, passed as `M`. -/

structure Heap (S : Type) where
  next : Nat
  mem : Nat → S

/-- In-place update of the object behind reference `r`. -/
def Heap.write {S : Type} (hp : Heap S) (r : Nat) (v : S) : Heap S :=
  ⟨hp.next, fun r2 => if r2 = r then v else hp.mem r2⟩

/-- Allocation of a fresh object (returns its reference). -/
def Heap.alloc {S : Type} (hp : Heap S) (v : S) : Nat × Heap S :=
  (hp.next, ⟨hp.next + 1, fun r2 => if r2 = hp.next then v else hp.mem r2⟩)

/-- `copy.deepcopy` of a stats value: an equal, independently owned value. -/
def deepcopy {α : Sort _} (x : α) : α := x

/-- The externally specified behaviour of `PciDeviceStats`:
`support_requests` is a pure query, `apply_requests` consumes the devices of
one request set. -/
structure PciDeviceStatsOps (S R : Type) where
  support_requests : S → List R → Bool
  apply_requests : S → List R → S

/-- `PciPassthroughConstraint._get_acceptable_pci_requests_times(
max_times_to_try, pci_requests, host_pci_stats)`: the while loop counting
consecutive successful `support_requests` checks, committing each success
with `apply_requests` on the stats object behind reference `r`; the first
argument of the recursion is the remaining number of trials
(`max_times_to_try - acceptable_times`). -/
def PciPassthroughConstraint.get_acceptable_pci_requests_times {S R : Type}
    (M : PciDeviceStatsOps S R) (pci_requests : List R) (r : Nat) :
    Nat → Heap S → Nat × Heap S
  | 0, hp => (0, hp)
  | fuel + 1, hp =>
      if M.support_requests (hp.mem r) pci_requests then
        let hp2 := hp.write r (M.apply_requests (hp.mem r) pci_requests)
        let res := PciPassthroughConstraint.get_acceptable_pci_requests_times
          M pci_requests r fuel hp2
        (res.1 + 1, res.2)
      else (0, hp)

/-- The `for i in xrange(num_hosts)` loop of
`PciPassthroughConstraint._generate_components`: deep-copy the host's
`pci_stats`, count the acceptable request times on the copy, and append one
forced-zero row for each `j in xrange(acceptable_num_instances,
num_instances)` when the count falls short. -/
def PciPassthroughConstraint.loop {S R V : Type} (M : PciDeviceStatsOps S R)
    (pci_requests : List R) (num_instances : Nat) (m : Nat → Nat → V) :
    Nat → List HostState → RowState V → Heap S → RowState V × Heap S
  | _, [], st, hp => (st, hp)
  | i, host :: rest, st, hp =>
      let a := hp.alloc (deepcopy (hp.mem host.pci_stats))
      let t := PciPassthroughConstraint.get_acceptable_pci_requests_times
        M pci_requests a.1 num_instances a.2
      let st2 :=
        if t.1 < num_instances then
          (List.range' t.1 (num_instances - t.1)).foldl
            (fun s j => s.append1 [m i j] [1] 0 "==") st
        else st
      PciPassthroughConstraint.loop M pci_requests num_instances m (i + 1)
        rest st2 t.2

/-- `PciPassthroughConstraint._generate_components(vars, hosts,
filter_properties)`: reads `filter_properties.get('pci_requests')` and
returns immediately when it is absent or empty (falsy). -/
def PciPassthroughConstraint.generate_components {S R V : Type}
    (M : PciDeviceStatsOps S R) (vars : BaseVariables V)
    (hosts : List HostState) (filter_properties : FilterProperties R)
    (st : RowState V) (hp : Heap S) : RowState V × Heap S :=
  match filter_properties.pci_requests with
  | none => (st, hp)
  | some pci_requests =>
      if pci_requests.isEmpty then (st, hp)
      else
        PciPassthroughConstraint.loop M pci_requests
          filter_properties.num_instances vars.host_instance_matrix 0 hosts
          st hp

/-- `get_components` on a `PciPassthroughConstraint` instance whose current
row state is `self`: `self._reset()` then `self._generate_components(...)`;
the heap of device-stats objects is threaded as the world state. -/
def PciPassthroughConstraint.get_components {S R V : Type}
    (M : PciDeviceStatsOps S R) (vars : BaseVariables V)
    (hosts : List HostState) (filter_properties : FilterProperties R)
    (self : RowState V) (hp : Heap S) : RowState V × Heap S :=
  PciPassthroughConstraint.generate_components M vars hosts
    filter_properties self.reset hp

/-- The value-level mirror of the trial loop: the number of consecutive
successful `support_requests` checks starting from stats value `s`, each
success committed with `apply_requests`, bounded by the remaining trials. -/
def pciAcceptableTimes {S R : Type} (M : PciDeviceStatsOps S R)
    (pci_requests : List R) : Nat → S → Nat
  | 0, _ => 0
  | fuel + 1, s =>
      if M.support_requests s pci_requests then
        pciAcceptableTimes M pci_requests fuel
          (M.apply_requests s pci_requests) + 1
      else 0

/-- The stats value after `n` committed trials. -/
def pciApplyIter {S R : Type} (M : PciDeviceStatsOps S R)
    (pci_requests : List R) : Nat → S → S
  | 0, s => s
  | n + 1, s => pciApplyIter M pci_requests n (M.apply_requests s pci_requests)

/-- Modelled from the spec: per-host forced-zero row variables of the
device-passthrough unit, computed from each host's stats value; the block of
host `i` covers instance indices `k .. N-1` where `k` is the number of
successful trials. -/
def PciSpec.rowVars {S R V : Type} (M : PciDeviceStatsOps S R)
    (pci_requests : List R) (N : Nat) (m : Nat → Nat → V) :
    Nat → List S → List (List V)
  | _, [] => []
  | i, s :: rest =>
      (List.range' (pciAcceptableTimes M pci_requests N s)
          (N - pciAcceptableTimes M pci_requests N s)).map (fun j => [m i j])
        ++ PciSpec.rowVars M pci_requests N m (i + 1) rest

/-! ### Heap lemmas -/

theorem Heap.write_next {S : Type} (hp : Heap S) (r : Nat) (v : S) :
    (hp.write r v).next = hp.next := rfl

theorem Heap.write_mem_self {S : Type} (hp : Heap S) (r : Nat) (v : S) :
    (hp.write r v).mem r = v := by
  simp [Heap.write]

theorem Heap.write_mem_ne {S : Type} (hp : Heap S) (r r2 : Nat) (v : S)
    (h : r2 ≠ r) : (hp.write r v).mem r2 = hp.mem r2 := by
  simp [Heap.write, h]

theorem Heap.alloc_fst {S : Type} (hp : Heap S) (v : S) :
    (hp.alloc v).1 = hp.next := rfl

theorem Heap.alloc_next {S : Type} (hp : Heap S) (v : S) :
    (hp.alloc v).2.next = hp.next + 1 := rfl

theorem Heap.alloc_mem_self {S : Type} (hp : Heap S) (v : S) :
    (hp.alloc v).2.mem hp.next = v := by
  simp [Heap.alloc]

theorem Heap.alloc_mem_ne {S : Type} (hp : Heap S) (v : S) (r : Nat)
    (h : r ≠ hp.next) : (hp.alloc v).2.mem r = hp.mem r := by
  simp [Heap.alloc, h]

theorem deepcopy_eq {α : Sort _} (x : α) : deepcopy x = x := rfl

/-! ### The trial loop: pure correspondence and frame -/

theorem PciPassthroughConstraint.get_acceptable_times_fst {S R : Type}
    (M : PciDeviceStatsOps S R) (reqs : List R) (r : Nat) :
    ∀ (fuel : Nat) (hp : Heap S),
    (PciPassthroughConstraint.get_acceptable_pci_requests_times
        M reqs r fuel hp).1 =
      pciAcceptableTimes M reqs fuel (hp.mem r) := by
  intro fuel
  induction fuel with
  | zero => intro hp; rfl
  | succ n ih =>
      intro hp
      by_cases h : M.support_requests (hp.mem r) reqs
      · simp only [PciPassthroughConstraint.get_acceptable_pci_requests_times,
          pciAcceptableTimes, h, if_true]
        rw [ih, Heap.write_mem_self]
      · simp [PciPassthroughConstraint.get_acceptable_pci_requests_times,
          pciAcceptableTimes, h]

theorem PciPassthroughConstraint.get_acceptable_times_frame {S R : Type}
    (M : PciDeviceStatsOps S R) (reqs : List R) (r : Nat) :
    ∀ (fuel : Nat) (hp : Heap S),
    (PciPassthroughConstraint.get_acceptable_pci_requests_times
        M reqs r fuel hp).2.next = hp.next ∧
    ∀ r2, r2 ≠ r →
      (PciPassthroughConstraint.get_acceptable_pci_requests_times
          M reqs r fuel hp).2.mem r2 = hp.mem r2 := by
  intro fuel
  induction fuel with
  | zero => intro hp; exact ⟨rfl, fun _ _ => rfl⟩
  | succ n ih =>
      intro hp
      by_cases h : M.support_requests (hp.mem r) reqs
      · simp only [PciPassthroughConstraint.get_acceptable_pci_requests_times,
          h, if_true]
        obtain ⟨ihn, ihm⟩ :=
          ih (hp.write r (M.apply_requests (hp.mem r) reqs))
        refine ⟨ihn.trans (Heap.write_next _ _ _), fun r2 hr2 => ?_⟩
        rw [ihm r2 hr2, Heap.write_mem_ne _ _ _ _ hr2]
      · simp only [PciPassthroughConstraint.get_acceptable_pci_requests_times,
          h, if_false]
        exact ⟨rfl, fun _ _ => rfl⟩

/-! ### The host loop: frame and row characterisation -/

theorem PciPassthroughConstraint.loop_frame {S R V : Type}
    (M : PciDeviceStatsOps S R) (reqs : List R) (N : Nat)
    (m : Nat → Nat → V) :
    ∀ (hosts : List HostState) (i : Nat) (st : RowState V) (hp : Heap S),
    hp.next ≤ (PciPassthroughConstraint.loop M reqs N m i hosts st hp).2.next ∧
    ∀ r < hp.next,
      (PciPassthroughConstraint.loop M reqs N m i hosts st hp).2.mem r =
        hp.mem r := by
  intro hosts
  induction hosts with
  | nil => intro i st hp; exact ⟨le_refl _, fun _ _ => rfl⟩
  | cons host rest ih =>
      intro i st hp
      rw [PciPassthroughConstraint.loop]
      obtain ⟨hfn, hfm⟩ := PciPassthroughConstraint.get_acceptable_times_frame
        M reqs (hp.alloc (deepcopy (hp.mem host.pci_stats))).1 N
        (hp.alloc (deepcopy (hp.mem host.pci_stats))).2
      obtain ⟨ihn, ihm⟩ := ih (i + 1)
        (if (PciPassthroughConstraint.get_acceptable_pci_requests_times M reqs
              (hp.alloc (deepcopy (hp.mem host.pci_stats))).1 N
              (hp.alloc (deepcopy (hp.mem host.pci_stats))).2).1 < N then
          (List.range'
              (PciPassthroughConstraint.get_acceptable_pci_requests_times M reqs
                (hp.alloc (deepcopy (hp.mem host.pci_stats))).1 N
                (hp.alloc (deepcopy (hp.mem host.pci_stats))).2).1
              (N - (PciPassthroughConstraint.get_acceptable_pci_requests_times
                M reqs (hp.alloc (deepcopy (hp.mem host.pci_stats))).1 N
                (hp.alloc (deepcopy (hp.mem host.pci_stats))).2).1)).foldl
            (fun s j => s.append1 [m i j] [1] 0 "==") st
        else st)
        (PciPassthroughConstraint.get_acceptable_pci_requests_times M reqs
          (hp.alloc (deepcopy (hp.mem host.pci_stats))).1 N
          (hp.alloc (deepcopy (hp.mem host.pci_stats))).2).2
      constructor
      · refine le_trans ?_ ihn
        rw [hfn, Heap.alloc_next]
        omega
      · intro r hr
        rw [ihm r (by rw [hfn, Heap.alloc_next]; omega)]
        rw [hfm r (by rw [Heap.alloc_fst]; omega)]
        exact Heap.alloc_mem_ne hp _ r (by omega)

theorem RowState.tailRows_eq {V : Type} (k N : Nat) (m : Nat → Nat → V)
    (i : Nat) (st : RowState V) :
    (if k < N then
       (List.range' k (N - k)).foldl
         (fun s j => s.append1 [m i j] [1] 0 "==") st
     else st) =
      ⟨st.vars ++ (List.range' k (N - k)).map (fun j => [m i j]),
       st.coefficients ++ List.replicate (N - k) [(1 : Int)],
       st.constants ++ List.replicate (N - k) (0 : Int),
       st.operators ++ List.replicate (N - k) "=="⟩ := by
  by_cases h : k < N
  · rw [if_pos h, RowState.foldl_append1]
    congr 1 <;> simp [List.map_const', List.length_range']
  · rw [if_neg h]
    have hz : N - k = 0 := by omega
    simp [hz]

theorem PciPassthroughConstraint.loop_rows {S R V : Type}
    (M : PciDeviceStatsOps S R) (reqs : List R) (N : Nat)
    (m : Nat → Nat → V) :
    ∀ (hosts : List HostState) (hp : Heap S),
    (∀ h ∈ hosts, h.pci_stats < hp.next) →
    ∀ (i : Nat) (st : RowState V),
    (PciPassthroughConstraint.loop M reqs N m i hosts st hp).1 =
      ⟨st.vars ++
         PciSpec.rowVars M reqs N m i (hosts.map fun h => hp.mem h.pci_stats),
       st.coefficients ++
         List.replicate
           (PciSpec.rowVars M reqs N m i
             (hosts.map fun h => hp.mem h.pci_stats)).length [(1 : Int)],
       st.constants ++
         List.replicate
           (PciSpec.rowVars M reqs N m i
             (hosts.map fun h => hp.mem h.pci_stats)).length (0 : Int),
       st.operators ++
         List.replicate
           (PciSpec.rowVars M reqs N m i
             (hosts.map fun h => hp.mem h.pci_stats)).length "=="⟩ := by
  intro hosts
  induction hosts with
  | nil =>
      intro hp _ i st
      simp [PciPassthroughConstraint.loop, PciSpec.rowVars]
  | cons host rest ih =>
      intro hp hvalid i st
      rw [PciPassthroughConstraint.loop]
      have hmemcopy : (hp.alloc (deepcopy (hp.mem host.pci_stats))).2.mem
          (hp.alloc (deepcopy (hp.mem host.pci_stats))).1 =
            hp.mem host.pci_stats := by
        rw [Heap.alloc_fst, Heap.alloc_mem_self, deepcopy_eq]
      have ht1 : (PciPassthroughConstraint.get_acceptable_pci_requests_times
            M reqs (hp.alloc (deepcopy (hp.mem host.pci_stats))).1 N
            (hp.alloc (deepcopy (hp.mem host.pci_stats))).2).1 =
          pciAcceptableTimes M reqs N (hp.mem host.pci_stats) := by
        rw [PciPassthroughConstraint.get_acceptable_times_fst, hmemcopy]
      obtain ⟨hfn, hfm⟩ := PciPassthroughConstraint.get_acceptable_times_frame
        M reqs (hp.alloc (deepcopy (hp.mem host.pci_stats))).1 N
        (hp.alloc (deepcopy (hp.mem host.pci_stats))).2
      have hnext2 : (PciPassthroughConstraint.get_acceptable_pci_requests_times
            M reqs (hp.alloc (deepcopy (hp.mem host.pci_stats))).1 N
            (hp.alloc (deepcopy (hp.mem host.pci_stats))).2).2.next =
          hp.next + 1 := by
        rw [hfn, Heap.alloc_next]
      have hvalid2 : ∀ h ∈ rest, h.pci_stats <
          (PciPassthroughConstraint.get_acceptable_pci_requests_times
            M reqs (hp.alloc (deepcopy (hp.mem host.pci_stats))).1 N
            (hp.alloc (deepcopy (hp.mem host.pci_stats))).2).2.next := by
        intro h hh
        rw [hnext2]
        have := hvalid h (List.mem_cons_of_mem _ hh)
        omega
      have hmem2 : ∀ h ∈ rest,
          (PciPassthroughConstraint.get_acceptable_pci_requests_times
            M reqs (hp.alloc (deepcopy (hp.mem host.pci_stats))).1 N
            (hp.alloc (deepcopy (hp.mem host.pci_stats))).2).2.mem
              h.pci_stats = hp.mem h.pci_stats := by
        intro h hh
        have hlt := hvalid h (List.mem_cons_of_mem _ hh)
        rw [hfm h.pci_stats (by rw [Heap.alloc_fst]; omega)]
        exact Heap.alloc_mem_ne hp _ h.pci_stats (by omega)
      rw [ih _ hvalid2]
      have hmap : (rest.map fun h =>
          (PciPassthroughConstraint.get_acceptable_pci_requests_times
            M reqs (hp.alloc (deepcopy (hp.mem host.pci_stats))).1 N
            (hp.alloc (deepcopy (hp.mem host.pci_stats))).2).2.mem
              h.pci_stats) =
          rest.map fun h => hp.mem h.pci_stats :=
        List.map_congr_left hmem2
      rw [hmap, ht1, RowState.tailRows_eq]
      simp only [List.map_cons, PciSpec.rowVars, List.length_append,
        List.length_map, List.length_range']
      congr 1 <;> simp only [List.replicate_add, List.append_assoc]

/-! ### Trial trajectory lemmas -/

theorem pciAcceptableTimes_of_first_failure {S R : Type}
    (M : PciDeviceStatsOps S R) (reqs : List R) :
    ∀ (fuel k : Nat) (s : S),
    (∀ t < k, M.support_requests (pciApplyIter M reqs t s) reqs = true) →
    M.support_requests (pciApplyIter M reqs k s) reqs = false →
    k ≤ fuel →
    pciAcceptableTimes M reqs fuel s = k := by
  intro fuel
  induction fuel with
  | zero =>
      intro k s _ _ hk
      have : k = 0 := by omega
      subst this
      rfl
  | succ n ih =>
      intro k s hsucc hfail hk
      cases k with
      | zero =>
          have hs : M.support_requests s reqs = false := hfail
          simp [pciAcceptableTimes, hs]
      | succ k2 =>
          have hs : M.support_requests s reqs = true := hsucc 0 (by omega)
          simp only [pciAcceptableTimes, hs, if_true]
          have hrec := ih k2 (M.apply_requests s reqs)
            (fun t ht => hsucc (t + 1) (by omega)) hfail (by omega)
          omega

theorem pciAcceptableTimes_of_all_success {S R : Type}
    (M : PciDeviceStatsOps S R) (reqs : List R) :
    ∀ (fuel : Nat) (s : S),
    (∀ t < fuel, M.support_requests (pciApplyIter M reqs t s) reqs = true) →
    pciAcceptableTimes M reqs fuel s = fuel := by
  intro fuel
  induction fuel with
  | zero => intro s _; rfl
  | succ n ih =>
      intro s hsucc
      have hs : M.support_requests s reqs = true := hsucc 0 (by omega)
      simp only [pciAcceptableTimes, hs, if_true]
      have hrec := ih (M.apply_requests s reqs)
        (fun t ht => hsucc (t + 1) (by omega))
      omega

theorem PciSpec.rowVars_append {S R V : Type} (M : PciDeviceStatsOps S R)
    (reqs : List R) (N : Nat) (m : Nat → Nat → V) :
    ∀ (xs ys : List S) (i : Nat),
    PciSpec.rowVars M reqs N m i (xs ++ ys) =
      PciSpec.rowVars M reqs N m i xs ++
        PciSpec.rowVars M reqs N m (i + xs.length) ys := by
  intro xs
  induction xs with
  | nil => intro ys i; simp [PciSpec.rowVars]
  | cons x xs ih =>
      intro ys i
      simp only [List.cons_append, PciSpec.rowVars, List.append_eq]
      rw [ih]
      simp only [List.append_assoc, List.length_cons]
      have hidx : i + 1 + xs.length = i + (xs.length + 1) := by omega
      rw [hidx]

/-- The row state consisting of the given singleton-variable forced-zero
rows: each row has coefficient list `[1]`, constant `0`, operator `==`. -/
def RowState.ofVars {V : Type} (vs : List (List V)) : RowState V :=
  ⟨vs, List.replicate vs.length [(1 : Int)],
   List.replicate vs.length (0 : Int), List.replicate vs.length "=="⟩

/-- Claim C8: `PciPassthroughConstraint._generate_components` never mutates
any host's `pci_stats`: for every host in the input list, the device-stats
object behind `hosts[i].pci_stats` is equal after the call to its value
before the call, because the `support_requests` / `apply_requests` trials
are performed only on a deep copy of the per-host device stats. -/
theorem pci_stats_not_mutated {S R V : Type} (M : PciDeviceStatsOps S R)
    (vars : BaseVariables V) (hosts : List HostState)
    (fp : FilterProperties R) (self : RowState V) (hp : Heap S)
    (hvalid : ∀ h ∈ hosts, h.pci_stats < hp.next) :
    ∀ h ∈ hosts,
      (PciPassthroughConstraint.get_components M vars hosts fp self
          hp).2.mem h.pci_stats = hp.mem h.pci_stats := by
  intro h hh
  unfold PciPassthroughConstraint.get_components
    PciPassthroughConstraint.generate_components
  rcases hfp : fp.pci_requests with _ | reqs
  · rfl
  · by_cases he : reqs.isEmpty
    · simp [he]
    · simp only [he, Bool.false_eq_true, if_false]
      exact (PciPassthroughConstraint.loop_frame M reqs fp.num_instances
        vars.host_instance_matrix hosts 0 self.reset hp).2
        h.pci_stats (hvalid h hh)

/-- Witness for claim C8: one host whose stats stream is `[true, false]`;
after `get_components` the object behind the host's `pci_stats` reference is
unchanged. -/
theorem pci_stats_not_mutated_witness :
    ((PciPassthroughConstraint.get_components (S := List Bool) (R := Unit)
        (V := Nat × Nat) ⟨fun s _ => s.headD false, fun s _ => s.tail⟩
        ⟨fun i j => (i, j)⟩ [⟨0, 0⟩] ⟨2, some [()]⟩ ⟨[], [], [], []⟩
        ⟨1, fun _ => [true, false]⟩).2).mem 0 = [true, false] := by
  have h := pci_stats_not_mutated (S := List Bool) (R := Unit)
    (V := Nat × Nat) ⟨fun s _ => s.headD false, fun s _ => s.tail⟩
    ⟨fun i j => (i, j)⟩ [⟨0, 0⟩] ⟨2, some [()]⟩ ⟨[], [], [], []⟩
    ⟨1, fun _ => [true, false]⟩ (by decide) ⟨0, 0⟩ (by decide)
  exact h.trans rfl

/-- Claim C9: when `filter_properties` has no `pci_requests` key or its
value is empty (falsy), `PciPassthroughConstraint.get_components` returns
four empty lists (and leaves the device-stats heap untouched) regardless of
the hosts and variables supplied. -/
theorem pci_skipped_without_requests {S R V : Type}
    (M : PciDeviceStatsOps S R) (vars : BaseVariables V)
    (hosts : List HostState) (fp : FilterProperties R) (self : RowState V)
    (hp : Heap S)
    (hfalsy : fp.pci_requests = none ∨ fp.pci_requests = some []) :
    PciPassthroughConstraint.get_components M vars hosts fp self hp =
      (⟨[], [], [], []⟩, hp) := by
  unfold PciPassthroughConstraint.get_components
    PciPassthroughConstraint.generate_components
  rcases hfalsy with h | h <;>
    simp [h, RowState.reset, List.isEmpty]

/-- Witness for claim C9 at a concrete input: `pci_requests` present but
empty. -/
theorem pci_skipped_without_requests_witness :
    PciPassthroughConstraint.get_components (S := List Bool) (R := Unit)
        (V := Nat × Nat) ⟨fun s _ => s.headD false, fun s _ => s.tail⟩
        ⟨fun i j => (i, j)⟩ [⟨0, 0⟩, ⟨0, 0⟩] ⟨3, some []⟩
        ⟨[[(5, 5)]], [[1]], [0], ["=="]⟩ ⟨1, fun _ => [true]⟩ =
      (⟨[], [], [], []⟩, ⟨1, fun _ => [true]⟩) := by
  exact pci_skipped_without_requests _ _ _ _ _ _ (Or.inr rfl)

/-- Claim C3: for a host at position `pre.length` in the host list, if the
per-host trial loop observes `k` consecutive successful `support_requests`
checks (`k < N`) followed by one rejection, `PciPassthroughConstraint` emits
exactly `N - k` rows for that host, each a singleton-variable row with
coefficients `[1]`, constant `0` and operator `==`, covering instance
indices `k .. N-1`; and if all `N` trials succeed, no rows are emitted for
that host. -/
theorem pci_trial_rows_exact {S R V : Type} (M : PciDeviceStatsOps S R)
    (reqs : List R) (vars : BaseVariables V) (pre post : List HostState)
    (host : HostState) (self : RowState V) (hp : Heap S) (N k : Nat)
    (hreqs : reqs ≠ [])
    (hvalid : ∀ h ∈ pre ++ host :: post, h.pci_stats < hp.next) :
    ((∀ t < k, M.support_requests
        (pciApplyIter M reqs t (hp.mem host.pci_stats)) reqs = true) →
      M.support_requests
        (pciApplyIter M reqs k (hp.mem host.pci_stats)) reqs = false →
      k < N →
      (PciPassthroughConstraint.get_components M vars (pre ++ host :: post)
          ⟨N, some reqs⟩ self hp).1 =
        RowState.ofVars
          (PciSpec.rowVars M reqs N vars.host_instance_matrix 0
              (pre.map fun h => hp.mem h.pci_stats) ++
            (List.range' k (N - k)).map
              (fun j => [vars.host_instance_matrix pre.length j]) ++
            PciSpec.rowVars M reqs N vars.host_instance_matrix
              (pre.length + 1) (post.map fun h => hp.mem h.pci_stats)))
    ∧ ((∀ t < N, M.support_requests
        (pciApplyIter M reqs t (hp.mem host.pci_stats)) reqs = true) →
      (PciPassthroughConstraint.get_components M vars (pre ++ host :: post)
          ⟨N, some reqs⟩ self hp).1 =
        RowState.ofVars
          (PciSpec.rowVars M reqs N vars.host_instance_matrix 0
              (pre.map fun h => hp.mem h.pci_stats) ++
            PciSpec.rowVars M reqs N vars.host_instance_matrix
              (pre.length + 1) (post.map fun h => hp.mem h.pci_stats))) := by
  have hne : reqs.isEmpty = false := by
    cases reqs with
    | nil => exact absurd rfl hreqs
    | cons a l => rfl
  have hrows : (PciPassthroughConstraint.get_components M vars
      (pre ++ host :: post) ⟨N, some reqs⟩ self hp).1 =
      RowState.ofVars
        (PciSpec.rowVars M reqs N vars.host_instance_matrix 0
          (pre.map fun h => hp.mem h.pci_stats) ++
          ((List.range'
              (pciAcceptableTimes M reqs N (hp.mem host.pci_stats))
              (N - pciAcceptableTimes M reqs N (hp.mem host.pci_stats))).map
            (fun j => [vars.host_instance_matrix pre.length j]) ++
            PciSpec.rowVars M reqs N vars.host_instance_matrix
              (pre.length + 1) (post.map fun h => hp.mem h.pci_stats))) := by
    unfold PciPassthroughConstraint.get_components
      PciPassthroughConstraint.generate_components
    simp only [hne, Bool.false_eq_true, if_false]
    rw [PciPassthroughConstraint.loop_rows M reqs N
      vars.host_instance_matrix (pre ++ host :: post) hp hvalid 0 _]
    rw [List.map_append, List.map_cons,
      PciSpec.rowVars_append M reqs N vars.host_instance_matrix]
    simp only [PciSpec.rowVars, List.length_map, RowState.reset,
      RowState.ofVars, List.nil_append, Nat.zero_add]
  constructor
  · intro hsucc hfail hkN
    rw [hrows,
      pciAcceptableTimes_of_first_failure M reqs N k
        (hp.mem host.pci_stats) hsucc hfail (by omega)]
    simp [List.append_assoc]
  · intro hsucc
    rw [hrows,
      pciAcceptableTimes_of_all_success M reqs N
        (hp.mem host.pci_stats) hsucc]
    simp

/-- Witness for claim C3: one host whose stats stream supports one request
then rejects, with two requested instances: exactly one row, for instance
index 1. -/
theorem pci_trial_rows_exact_witness :
    (PciPassthroughConstraint.get_components (S := List Bool) (R := Unit)
        (V := Nat × Nat) ⟨fun s _ => s.headD false, fun s _ => s.tail⟩
        ⟨fun i j => (i, j)⟩ [⟨0, 0⟩] ⟨2, some [()]⟩ ⟨[], [], [], []⟩
        ⟨1, fun _ => [true, false]⟩).1 =
      ⟨[[(0, 1)]], [[1]], [0], ["=="]⟩ := by
  have h := (pci_trial_rows_exact (S := List Bool) (R := Unit)
    (V := Nat × Nat) ⟨fun s _ => s.headD false, fun s _ => s.tail⟩ [()]
    ⟨fun i j => (i, j)⟩ [] [] ⟨0, 0⟩ ⟨[], [], [], []⟩
    ⟨1, fun _ => [true, false]⟩ 2 1 (by decide) (by decide)).1
    (by decide) (by decide) (by decide)
  exact h.trans (by decide)

/-- Claim C7: calling `get_components` twice with identical inputs on the
same constraint instance (whatever row state `self` or `self2` it carries
from a prior call, including the fresh state of a newly constructed
instance) yields identical (variables, coefficients, constants, operators)
tuples: the `_reset` at the start of each call discards all residual state,
for each of the embedded deterministic units. -/
theorem get_components_state_independent {S R V : Type} (max_io_ops : Int)
    (M : PciDeviceStatsOps S R)
    (host_filter : HostState → FilterProperties R → Bool)
    (vars : BaseVariables V) (hosts : List HostState)
    (fp : FilterProperties R) (hp : Heap S) (self self2 : RowState V) :
    IoOpsConstraint.get_components max_io_ops vars hosts fp self =
      IoOpsConstraint.get_components max_io_ops vars hosts fp self2
    ∧ PciPassthroughConstraint.get_components M vars hosts fp self hp =
      PciPassthroughConstraint.get_components M vars hosts fp self2 hp
    ∧ BaseFilterConstraint.get_components host_filter vars hosts fp self =
      BaseFilterConstraint.get_components host_filter vars hosts fp self2 :=
  ⟨rfl, rfl, rfl⟩

/-! ### Equal lengths of the four lists -/

/-- The four parallel lists describe complete rows: one coefficient list,
one constant and one operator per variable list. -/
def RowState.balanced {V : Type} (st : RowState V) : Prop :=
  st.coefficients.length = st.vars.length ∧
  st.constants.length = st.vars.length ∧
  st.operators.length = st.vars.length

theorem RowState.tailRows_balanced {V : Type} (k N : Nat)
    (m : Nat → Nat → V) (i : Nat) (st : RowState V) (h : st.balanced) :
    (if k < N then
       (List.range' k (N - k)).foldl
         (fun s j => s.append1 [m i j] [1] 0 "==") st
     else st).balanced := by
  rw [RowState.tailRows_eq]
  obtain ⟨h1, h2, h3⟩ := h
  refine ⟨?_, ?_, ?_⟩ <;>
    simp [List.length_append, List.length_map, List.length_replicate,
      List.length_range', h1, h2, h3]

theorem PciPassthroughConstraint.loop_balanced {S R V : Type}
    (M : PciDeviceStatsOps S R) (reqs : List R) (N : Nat)
    (m : Nat → Nat → V) :
    ∀ (hosts : List HostState) (i : Nat) (st : RowState V) (hp : Heap S),
    st.balanced →
    (PciPassthroughConstraint.loop M reqs N m i hosts st hp).1.balanced := by
  intro hosts
  induction hosts with
  | nil => intro i st hp h; exact h
  | cons host rest ih =>
      intro i st hp h
      rw [PciPassthroughConstraint.loop]
      exact ih _ _ _ (RowState.tailRows_balanced _ _ _ _ _ h)

/-- Claim C10: for every call to `get_components` on `IoOpsConstraint`,
`PciPassthroughConstraint` or a `BaseFilterConstraint` subclass, the four
returned lists (variables, coefficients, constants, operators) have equal
length, so every index describes one complete constraint row. -/
theorem get_components_lists_balanced {S R V : Type} (max_io_ops : Int)
    (M : PciDeviceStatsOps S R)
    (host_filter : HostState → FilterProperties R → Bool)
    (vars : BaseVariables V) (hosts : List HostState)
    (fp : FilterProperties R) (hp : Heap S) (self : RowState V) :
    (IoOpsConstraint.get_components max_io_ops vars hosts fp self).balanced
    ∧ (PciPassthroughConstraint.get_components M vars hosts fp self
        hp).1.balanced
    ∧ (BaseFilterConstraint.get_components host_filter vars hosts fp
        self).balanced := by
  refine ⟨?_, ?_, ?_⟩
  · unfold IoOpsConstraint.get_components IoOpsConstraint.generate_components
    rw [IoOpsConstraint.loop_eq]
    refine ⟨?_, ?_, ?_⟩ <;> simp [RowState.reset]
  · unfold PciPassthroughConstraint.get_components
      PciPassthroughConstraint.generate_components
    rcases fp.pci_requests with _ | reqs
    · exact ⟨rfl, rfl, rfl⟩
    · by_cases he : reqs.isEmpty
      · simp only [he, if_true]
        exact ⟨rfl, rfl, rfl⟩
      · simp only [he, Bool.false_eq_true, if_false]
        exact PciPassthroughConstraint.loop_balanced _ _ _ _ hosts 0 _ hp
          ⟨rfl, rfl, rfl⟩
  · unfold BaseFilterConstraint.get_components
      BaseFilterConstraint.generate_components
    rw [BaseFilterConstraint.filterLoop_eq]
    refine ⟨?_, ?_, ?_⟩ <;> simp [RowState.reset]

/-! ## ConstraintSolverScheduler (`solver_scheduler.py`)

`schedule_run_instance` and `select_destinations` deep-copy
`filter_properties` at entry, call `self._schedule` (which both mutates the
property bag in place and may raise `SolverFailed`), and on `SolverFailed`
either re-invoke the fallback scheduler's `_schedule` on the restored
pristine copy (when `CONF.solver_scheduler.enable_fallback_scheduler`) or
proceed with an empty selection.  `_schedule` is the external collaborator
here: it is modelled as a function returning the outcome
(`Except.error () = SolverFailed`) together with the property bag it leaves
behind (`P` is the opaque property-bag type, `L` the type of a host's
`limits`). -/

structure HostObject (L : Type) where
  host : String
  nodename : String
  limits : L
deriving DecidableEq, Repr

/-- `weights.WeighedHost(host, 1)`-shaped records produced by `_schedule`. -/
structure WeighedHost (L : Type) where
  obj : HostObject L
  weight : Int
deriving DecidableEq, Repr

/-- One entry of the list returned by `select_destinations`:
`dict(host=..., nodename=..., limits=...)`. -/
structure Dest (L : Type) where
  host : String
  nodename : String
  limits : L
deriving DecidableEq, Repr

/-- The exception caught by the per-instance error handler
`driver.handle_schedule_error`. -/
inductive ScheduleError where
  | noValidHost
  | provisionError
deriving DecidableEq, Repr

/-- Observable per-instance outcome of `schedule_run_instance`'s assignment
loop: the instance was provisioned on a host, or its exception was handled
individually by `driver.handle_schedule_error`. -/
inductive InstanceOutcome (L : Type) where
  | provisioned (h : WeighedHost L)
  | errorHandled (e : ScheduleError)
deriving DecidableEq, Repr

/-- The shared try/except block of `schedule_run_instance` and
`select_destinations`: the hosts from `self._schedule`, or on `SolverFailed`
the hosts from `self.fallback_scheduler._schedule` applied to the pristine
deep copy (when fallback is enabled) or the empty list (when disabled). -/
def ConstraintSolverScheduler.selectedOrFallback {P L : Type}
    (schedule : P → Except Unit (List (WeighedHost L)) × P)
    (fallback_scheduler : P → List (WeighedHost L))
    (enable_fallback_scheduler : Bool) (filter_properties : P) :
    List (WeighedHost L) :=
  let orig_filter_properties := deepcopy filter_properties
  match schedule filter_properties with
  | (Except.ok hs, _) => hs
  | (Except.error _, _) =>
      if enable_fallback_scheduler then
        fallback_scheduler orig_filter_properties
      else []

/-- The `for num, instance_uuid in enumerate(instance_uuids)` loop of
`schedule_run_instance`: pop the next weighed host (an exhausted list raises
`NoValidHost`), provision it (`provision` is the external
`_provision_resource`, which may raise); every exception is caught by
`driver.handle_schedule_error` for that instance alone and the loop
continues. -/
def ConstraintSolverScheduler.assignLoop {L : Type}
    (provision : String → WeighedHost L → Except Unit Unit) :
    List String → List (WeighedHost L) → List (InstanceOutcome L)
  | [], _ => []
  | _instance_uuid :: rest, [] =>
      InstanceOutcome.errorHandled ScheduleError.noValidHost ::
        ConstraintSolverScheduler.assignLoop provision rest []
  | instance_uuid :: rest, weighed_host :: hrest =>
      (match provision instance_uuid weighed_host with
       | Except.ok _ => InstanceOutcome.provisioned weighed_host
       | Except.error _ =>
           InstanceOutcome.errorHandled ScheduleError.provisionError) ::
        ConstraintSolverScheduler.assignLoop provision rest hrest

/-- `ConstraintSolverScheduler.schedule_run_instance`, returning the
observable per-instance outcomes of its assignment loop. -/
def ConstraintSolverScheduler.schedule_run_instance {P L : Type}
    (schedule : P → Except Unit (List (WeighedHost L)) × P)
    (fallback_scheduler : P → List (WeighedHost L))
    (enable_fallback_scheduler : Bool)
    (provision : String → WeighedHost L → Except Unit Unit)
    (instance_uuids : List String) (filter_properties : P) :
    List (InstanceOutcome L) :=
  ConstraintSolverScheduler.assignLoop provision instance_uuids
    (ConstraintSolverScheduler.selectedOrFallback schedule
      fallback_scheduler enable_fallback_scheduler filter_properties)

/-- `ConstraintSolverScheduler.select_destinations`: raises `NoValidHost`
(`Except.error ()`) when fewer hosts were selected than requested, else
returns the `(host, nodename, limits)` records. -/
def ConstraintSolverScheduler.select_destinations {P L : Type}
    (schedule : P → Except Unit (List (WeighedHost L)) × P)
    (fallback_scheduler : P → List (WeighedHost L))
    (enable_fallback_scheduler : Bool)
    (num_instances : Nat) (filter_properties : P) :
    Except Unit (List (Dest L)) :=
  let selected_hosts := ConstraintSolverScheduler.selectedOrFallback schedule
    fallback_scheduler enable_fallback_scheduler filter_properties
  if selected_hosts.length < num_instances then Except.error ()
  else
    Except.ok (selected_hosts.map fun h =>
      ⟨h.obj.host, h.obj.nodename, h.obj.limits⟩)

/-- Claim C1: when the solve attempt raises `SolverFailed` and the fallback
scheduler is enabled, the fallback scheduler's `_schedule` receives the
original property bag deep-copied at entry — not the property bag `fp2`
left behind by the solve attempt's merges, which is arbitrary here — in
both `schedule_run_instance` and `select_destinations`: the result depends
only on `fallback_scheduler` applied to the pristine `filter_properties`. -/
theorem fallback_receives_original_properties {P L : Type}
    (schedule : P → Except Unit (List (WeighedHost L)) × P)
    (fallback_scheduler : P → List (WeighedHost L))
    (provision : String → WeighedHost L → Except Unit Unit)
    (instance_uuids : List String) (num_instances : Nat)
    (filter_properties : P) (fp2 : P)
    (hfail : schedule filter_properties = (Except.error (), fp2)) :
    ConstraintSolverScheduler.schedule_run_instance schedule
        fallback_scheduler true provision instance_uuids filter_properties =
      ConstraintSolverScheduler.assignLoop provision instance_uuids
        (fallback_scheduler filter_properties)
    ∧ ConstraintSolverScheduler.select_destinations schedule
        fallback_scheduler true num_instances filter_properties =
      (if (fallback_scheduler filter_properties).length < num_instances then
        Except.error ()
      else
        Except.ok ((fallback_scheduler filter_properties).map fun h =>
          ⟨h.obj.host, h.obj.nodename, h.obj.limits⟩)) := by
  have hsel : ConstraintSolverScheduler.selectedOrFallback schedule
      fallback_scheduler true filter_properties =
      fallback_scheduler filter_properties := by
    unfold ConstraintSolverScheduler.selectedOrFallback
    rw [hfail]
    rfl
  constructor
  · unfold ConstraintSolverScheduler.schedule_run_instance
    rw [hsel]
  · unfold ConstraintSolverScheduler.select_destinations
    rw [hsel]

/-- Witness for claim C1: a solve attempt that fails and hands back a
mutated bag (`5 + 7`); the fallback sees the pristine bag `5` and its
selection drives both entry points. -/
theorem fallback_receives_original_properties_witness :
    ConstraintSolverScheduler.schedule_run_instance (P := Nat) (L := Nat)
        (fun p => (Except.error (), p + 7))
        (fun p => [⟨⟨"fb", "n", p⟩, 1⟩]) true (fun _ _ => Except.ok ())
        ["u1"] 5 =
      [InstanceOutcome.provisioned ⟨⟨"fb", "n", 5⟩, 1⟩]
    ∧ ConstraintSolverScheduler.select_destinations (P := Nat) (L := Nat)
        (fun p => (Except.error (), p + 7))
        (fun p => [⟨⟨"fb", "n", p⟩, 1⟩]) true 1 5 =
      Except.ok [⟨"fb", "n", 5⟩] := by
  have h := fallback_receives_original_properties (P := Nat) (L := Nat)
    (fun p => (Except.error (), p + 7)) (fun p => [⟨⟨"fb", "n", p⟩, 1⟩])
    (fun _ _ => Except.ok ()) ["u1"] 1 5 12 rfl
  exact ⟨h.1.trans (by decide), h.2.trans (by rfl)⟩

/-- Claim C4: `select_destinations` raises `NoValidHost` exactly when the
number of selected hosts is below the requested `num_instances`; otherwise
it returns one `(host, nodename, limits)` record per selection; and when
the solver signals `SolverFailed` with fallback disabled, the selection is
empty and the outcome is `NoValidHost` for any `num_instances >= 1`. -/
theorem select_destinations_novalidhost_iff {P L : Type}
    (schedule : P → Except Unit (List (WeighedHost L)) × P)
    (fallback_scheduler : P → List (WeighedHost L))
    (enable_fallback_scheduler : Bool)
    (num_instances : Nat) (filter_properties : P) :
    (ConstraintSolverScheduler.select_destinations schedule
        fallback_scheduler enable_fallback_scheduler num_instances
        filter_properties = Except.error () ↔
      (ConstraintSolverScheduler.selectedOrFallback schedule
        fallback_scheduler enable_fallback_scheduler
        filter_properties).length < num_instances)
    ∧ (¬ (ConstraintSolverScheduler.selectedOrFallback schedule
          fallback_scheduler enable_fallback_scheduler
          filter_properties).length < num_instances →
        ConstraintSolverScheduler.select_destinations schedule
          fallback_scheduler enable_fallback_scheduler num_instances
          filter_properties =
          Except.ok ((ConstraintSolverScheduler.selectedOrFallback schedule
            fallback_scheduler enable_fallback_scheduler
            filter_properties).map fun h =>
              ⟨h.obj.host, h.obj.nodename, h.obj.limits⟩))
    ∧ (∀ fp2, schedule filter_properties = (Except.error (), fp2) →
        enable_fallback_scheduler = false → 1 ≤ num_instances →
        ConstraintSolverScheduler.selectedOrFallback schedule
          fallback_scheduler enable_fallback_scheduler filter_properties = []
        ∧ ConstraintSolverScheduler.select_destinations schedule
          fallback_scheduler enable_fallback_scheduler num_instances
          filter_properties = Except.error ()) := by
  refine ⟨?_, ?_, ?_⟩
  · unfold ConstraintSolverScheduler.select_destinations
    by_cases h : (ConstraintSolverScheduler.selectedOrFallback schedule
        fallback_scheduler enable_fallback_scheduler
        filter_properties).length < num_instances
    · simp [h]
    · simp [h]
  · intro h
    unfold ConstraintSolverScheduler.select_destinations
    rw [if_neg h]
  · intro fp2 hfail hdis hN
    subst hdis
    have hsel : ConstraintSolverScheduler.selectedOrFallback schedule
        fallback_scheduler false filter_properties = [] := by
      unfold ConstraintSolverScheduler.selectedOrFallback
      rw [hfail]
      rfl
    refine ⟨hsel, ?_⟩
    unfold ConstraintSolverScheduler.select_destinations
    rw [hsel]
    rw [if_pos (by simp; omega)]

/-- Witness for claim C4: a failing solve with fallback disabled and one
requested instance yields the `NoValidHost` outcome. -/
theorem select_destinations_novalidhost_iff_witness :
    ConstraintSolverScheduler.select_destinations (P := Nat) (L := Nat)
        (fun p => (Except.error (), p)) (fun _ => []) false 1 0 =
      Except.error () := by
  have h := select_destinations_novalidhost_iff (P := Nat) (L := Nat)
    (fun p => (Except.error (), p)) (fun _ => []) false 1 0
  exact (h.2.2 0 rfl rfl (by omega)).2

/-! ### The assignment loop of `schedule_run_instance` -/

theorem ConstraintSolverScheduler.assignLoop_length {L : Type}
    (provision : String → WeighedHost L → Except Unit Unit) :
    ∀ (instance_uuids : List String)
      (weighed_hosts : List (WeighedHost L)),
    (ConstraintSolverScheduler.assignLoop provision instance_uuids
        weighed_hosts).length = instance_uuids.length := by
  intro instance_uuids
  induction instance_uuids with
  | nil => intro weighed_hosts; rfl
  | cons u rest ih =>
      intro weighed_hosts
      cases weighed_hosts with
      | nil => simp [ConstraintSolverScheduler.assignLoop, ih]
      | cons wh hrest => simp [ConstraintSolverScheduler.assignLoop, ih]

theorem ConstraintSolverScheduler.assignLoop_exhausted {L : Type}
    (provision : String → WeighedHost L → Except Unit Unit) :
    ∀ (instance_uuids : List String)
      (weighed_hosts : List (WeighedHost L)) (p : Nat),
    weighed_hosts.length ≤ p → p < instance_uuids.length →
    (ConstraintSolverScheduler.assignLoop provision instance_uuids
        weighed_hosts).get? p =
      some (InstanceOutcome.errorHandled ScheduleError.noValidHost) := by
  intro instance_uuids
  induction instance_uuids with
  | nil =>
      intro weighed_hosts p h1 h2
      simp at h2
  | cons u rest ih =>
      intro weighed_hosts p h1 h2
      cases weighed_hosts with
      | nil =>
          cases p with
          | zero => rfl
          | succ p2 =>
              rw [ConstraintSolverScheduler.assignLoop,
                List.get?_cons_succ]
              exact ih [] p2 (by simp)
                (by simp only [List.length_cons] at h2; omega)
      | cons wh hrest =>
          cases p with
          | zero => simp only [List.length_cons] at h1; omega
          | succ p2 =>
              rw [ConstraintSolverScheduler.assignLoop,
                List.get?_cons_succ]
              exact ih hrest p2
                (by simp only [List.length_cons] at h1; omega)
                (by simp only [List.length_cons] at h2; omega)

/-- Claim C5: `schedule_run_instance`'s assignment loop processes every
requested instance uuid in order even when the ordered selection list is
exhausted: one outcome is produced per uuid, and every uuid at a position
past the end of the selection list is marked unable to be placed through
the per-instance error path (`NoValidHost` handled by
`handle_schedule_error` for that instance alone), with processing
continuing for the remaining instances. -/
theorem schedule_run_instance_marks_unplaced {P L : Type}
    (schedule : P → Except Unit (List (WeighedHost L)) × P)
    (fallback_scheduler : P → List (WeighedHost L))
    (enable_fallback_scheduler : Bool)
    (provision : String → WeighedHost L → Except Unit Unit)
    (instance_uuids : List String) (filter_properties : P)
    (weighed_hosts : List (WeighedHost L)) (fp2 : P)
    (hok : schedule filter_properties = (Except.ok weighed_hosts, fp2)) :
    (ConstraintSolverScheduler.schedule_run_instance schedule
        fallback_scheduler enable_fallback_scheduler provision
        instance_uuids filter_properties).length = instance_uuids.length
    ∧ ∀ p, weighed_hosts.length ≤ p → p < instance_uuids.length →
        (ConstraintSolverScheduler.schedule_run_instance schedule
            fallback_scheduler enable_fallback_scheduler provision
            instance_uuids filter_properties).get? p =
          some (InstanceOutcome.errorHandled ScheduleError.noValidHost) := by
  have hsel : ConstraintSolverScheduler.selectedOrFallback schedule
      fallback_scheduler enable_fallback_scheduler filter_properties =
      weighed_hosts := by
    unfold ConstraintSolverScheduler.selectedOrFallback
    rw [hok]
  unfold ConstraintSolverScheduler.schedule_run_instance
  rw [hsel]
  exact ⟨ConstraintSolverScheduler.assignLoop_length provision
      instance_uuids weighed_hosts,
    fun p h1 h2 => ConstraintSolverScheduler.assignLoop_exhausted provision
      instance_uuids weighed_hosts p h1 h2⟩

/-- Witness for claim C5: two uuids against a single selected host; the
second uuid gets the per-instance `NoValidHost` error outcome and the batch
still produces one outcome per uuid. -/
theorem schedule_run_instance_marks_unplaced_witness :
    (ConstraintSolverScheduler.schedule_run_instance (P := Nat) (L := Nat)
        (fun p => (Except.ok [⟨⟨"h1", "n", 0⟩, 1⟩], p)) (fun _ => []) true
        (fun _ _ => Except.ok ()) ["a", "b"] 3).length = 2
    ∧ (ConstraintSolverScheduler.schedule_run_instance (P := Nat) (L := Nat)
        (fun p => (Except.ok [⟨⟨"h1", "n", 0⟩, 1⟩], p)) (fun _ => []) true
        (fun _ _ => Except.ok ()) ["a", "b"] 3).get? 1 =
      some (InstanceOutcome.errorHandled ScheduleError.noValidHost) := by
  have h := schedule_run_instance_marks_unplaced (P := Nat) (L := Nat)
    (fun p => (Except.ok [⟨⟨"h1", "n", 0⟩, 1⟩], p)) (fun _ => []) true
    (fun _ _ => Except.ok ()) ["a", "b"] 3 [⟨⟨"h1", "n", 0⟩, 1⟩] 3 rfl
  exact ⟨h.1, h.2 1 (by decide) (by decide)⟩
